import Mathlib

/-!
Formal model of the sequential sample-size search in the notebook
`hybrid-audit-example-2.ipynb` (repository CORLA18).

The notebook sets the constants of cell-2 (`lambda1`, `lambda2`, `alpha1`,
`alpha2`, `margin`, `N1`, `N2`), builds the no-CVR population of cell-7,
computes the null margin `c`, and then runs

  `np.random.seed(292018)`
  `for n in range(20, 10000, 20):`
  `    sample = np.random.choice(pop, n)`
  `    pval = trihypergeometric_optim(sample, popsize=N2, null_margin=c)`
  `    print("n=", n, ", pvalue=", pval)`
  `    if pval < alpha2:`
  `        break`

The statistical oracle `trihypergeometric_optim` is an external import and is
modelled as an abstract function; the p-values it returns and the risk limit
are compared only with `<`, so they live in an arbitrary linear order.  The
seeded pseudo-random generator is modelled as a stream `g : ℕ → ℕ` of raw
index draws; `np.random.choice(pop, n)` (with its default `replace=True`)
consumes one draw per sampled element and reduces it modulo the population
size.  Python floats are binary64 values, hence exact rationals; the function
`fl` below is round-to-nearest, ties-to-even, at 53 significand bits, which is
exactly the rounding binary64 applies to each arithmetic result in the range
of magnitudes used by the notebook.
-/

namespace HybridAudit

/-- Round a rational to the nearest integer multiple of `u`, ties to even.
This is the rounding step of IEEE-754 binary64 once the unit in the last
place `u` of the target binade is fixed. -/
def rne (u q : ℚ) : ℚ :=
  if q / u - ⌊q / u⌋ < 1/2 then ⌊q / u⌋ * u
  else if 1/2 < q / u - ⌊q / u⌋ then (⌊q / u⌋ + 1) * u
  else if 2 ∣ ⌊q / u⌋ then ⌊q / u⌋ * u
  else (⌊q / u⌋ + 1) * u

/-- IEEE-754 binary64 rounding of an exact rational value: round to 53
significand bits, nearest, ties to even.  For a nonzero `q` the binade is
`Int.log 2 |q|` and the unit in the last place is `2 ^ (Int.log 2 |q| - 52)`.
All values arising in the notebook are normal, far from overflow and
underflow, so this is exactly what the Python arithmetic does to each
operation result. -/
def fl (q : ℚ) : ℚ :=
  if q = 0 then 0 else rne ((2 : ℚ) ^ (Int.log 2 |q| - 52)) q

/-- Cell-2: `lambda1 = 0.9`.  The literal `0.9` denotes the binary64 value
nearest to 9/10. -/
def lambda1 : ℚ := fl (9 / 10)

/-- Cell-2: `lambda2 = 1-lambda1`, computed in binary64. -/
def lambda2 : ℚ := fl (1 - lambda1)

/-- Cell-2: `alpha1 = 0.01` as a binary64 value. -/
def alpha1 : ℚ := fl (1 / 100)

/-- Cell-2: `alpha2 = 0.0404` as a binary64 value. -/
def alpha2 : ℚ := fl (404 / 10000)

/-- Cell-2: `margin = 389000` (exact in binary64). -/
def margin : ℚ := 389000

/-- Cell-2: `N1 = 1900000`, the CVR stratum size. -/
def N1 : ℕ := 1900000

/-- Cell-2: `N2 = 100000`, the no-CVR stratum size. -/
def N2 : ℕ := 100000

/-- A ballot value of the cell-7 population
`pop = np.array([0]*52500 + [1]*42500 + [np.nan]*5000)`:
`zero` models the float 0, `one` the float 1, `invalid` the `np.nan`
entries. -/
inductive Ballot where
  | zero
  | one
  | invalid
  deriving DecidableEq, Repr

/-- Cell-7: the no-CVR population, 52500 zeros, 42500 ones, 5000 invalid
ballots. -/
def pop : List Ballot :=
  List.replicate 52500 Ballot.zero ++ List.replicate 42500 Ballot.one ++
    List.replicate 5000 Ballot.invalid

/-- Cell-7: `c = (42500-52500) - lambda2*margin`, computed in binary64:
the product is rounded, and the subtraction result is rounded.  The
integer literals and their difference are exact in binary64. -/
def c : ℚ := fl ((42500 - 52500) - fl (lambda2 * margin))

/-- Python `range(a, b, s)` for a positive step `s`: the values
`a, a + s, a + 2*s, ...` that are strictly below `b`. -/
def pyRange (a b s : ℕ) : List ℕ :=
  (List.range ((b - a + s - 1) / s)).map fun i => a + s * i

/-- Model of `np.random.choice(pop, n)` with the default `replace=True`:
`n` independent draws with replacement.  The generator stream `g` supplies
one raw draw per sampled element, starting at position `off`; each raw draw
selects the population entry at its value modulo the population size.  On an
empty population `np.random.choice` raises `ValueError`, modelled as
`none`. -/
def drawSample (g : ℕ → ℕ) (off : ℕ) (pop : List Ballot) (n : ℕ) :
    Option (List Ballot) :=
  if h : pop = [] then none
  else
    some ((List.range n).map fun k =>
      pop.get ⟨g (off + k) % pop.length, Nat.mod_lt _ (List.length_pos.mpr h)⟩)

/-- Terminal outcome of the search loop of cell-7: the loop breaks with a
final pair (`found`), runs the candidate list to its end (`exhausted`), or
aborts because the sampler raised (`error`). -/
inductive SearchResult (α : Type) where
  | found (n : ℕ) (pval : α)
  | exhausted
  | error
  deriving DecidableEq

/-- The body of the cell-7 loop over the remaining candidate sample sizes:
draw a fresh sample of the current size, query the p-value oracle, stop with
`found` when the p-value is below the risk limit, otherwise continue with the
next candidate.  The generator position advances by the number of draws
consumed. -/
def searchGo {α : Type} [LinearOrder α] (oracle : List Ballot → ℕ → ℚ → α)
    (g : ℕ → ℕ) (pop : List Ballot) (popsize : ℕ) (c : ℚ) (alpha : α) :
    List ℕ → ℕ → SearchResult α
  | [], _ => .exhausted
  | n :: rest, off =>
    match drawSample g off pop n with
    | none => .error
    | some sample =>
      let pval := oracle sample popsize c
      if pval < alpha then .found n pval
      else searchGo oracle g pop popsize c alpha rest (off + n)

/-- The cell-7 search: run the loop body over the Python range
`range(stepSize, maxN, stepSize)` with the generator at its seeded start. -/
def search {α : Type} [LinearOrder α] (oracle : List Ballot → ℕ → ℚ → α)
    (g : ℕ → ℕ) (pop : List Ballot) (popsize : ℕ) (c : ℚ) (alpha : α)
    (stepSize maxN : ℕ) : SearchResult α :=
  searchGo oracle g pop popsize c alpha (pyRange stepSize maxN stepSize) 0

/-- The printed `(n, pvalue)` pairs of the cell-7 loop over the remaining
candidates: one pair per iteration actually executed, including the final
successful one (the notebook prints before testing the break). -/
def traceGo {α : Type} [LinearOrder α] (oracle : List Ballot → ℕ → ℚ → α)
    (g : ℕ → ℕ) (pop : List Ballot) (popsize : ℕ) (c : ℚ) (alpha : α) :
    List ℕ → ℕ → List (ℕ × α)
  | [], _ => []
  | n :: rest, off =>
    match drawSample g off pop n with
    | none => []
    | some sample =>
      let pval := oracle sample popsize c
      (n, pval) :: (if pval < alpha then []
        else traceGo oracle g pop popsize c alpha rest (off + n))

/-- The full printed `(n, pvalue)` sequence of the cell-7 search. -/
def searchTrace {α : Type} [LinearOrder α] (oracle : List Ballot → ℕ → ℚ → α)
    (g : ℕ → ℕ) (pop : List Ballot) (popsize : ℕ) (c : ℚ) (alpha : α)
    (stepSize maxN : ℕ) : List (ℕ × α) :=
  traceGo oracle g pop popsize c alpha (pyRange stepSize maxN stepSize) 0

/-- The p-value the loop computes at candidate index `i` of the list `cands`,
when the loop body starts with the generator at position `off`.  The
generator position at index `i` is `off` plus the sizes of all earlier
candidates, because every earlier iteration consumed exactly its sample size
in raw draws.  This is a pure function of the generator, the population and
the candidate list alone: oracle outputs at earlier indices do not enter. -/
def pvalAt {α : Type} (oracle : List Ballot → ℕ → ℚ → α) (g : ℕ → ℕ)
    (pop : List Ballot) (popsize : ℕ) (c : ℚ) (cands : List ℕ) (off : ℕ)
    (i : ℕ) : α :=
  oracle ((drawSample g (off + ((cands.take i).sum)) pop (cands.getD i 0)).getD [])
    popsize c

/-- The entire mutable state of one iteration of the cell-7 loop: the
environment (population, `popsize=N2`, `null_margin=c`, risk limit, step,
ceiling), the loop counter `n`, the generator position, and the two
per-iteration bindings `sample` and `pval`. -/
structure LoopState (α : Type) where
  pop : List Ballot
  popsize : ℕ
  c : ℚ
  alpha : α
  stepSize : ℕ
  maxN : ℕ
  n : ℕ
  off : ℕ
  sample : Option (List Ballot)
  pval : Option α

/-- One iteration of the cell-7 loop body as a state transformer: draw the
sample, compute the p-value, advance the generator position by the draws
consumed and the loop counter by the step.  The environment fields are
copied unchanged. -/
def stepLoop {α : Type} (oracle : List Ballot → ℕ → ℚ → α) (g : ℕ → ℕ)
    (s : LoopState α) : LoopState α :=
  let smp := drawSample g s.off s.pop s.n
  { s with
    sample := smp
    pval := smp.map fun sm => oracle sm s.popsize s.c
    n := s.n + s.stepSize
    off := s.off + s.n }

/-! ### Evaluation of the binary64 constants of cell-2 and cell-7 -/

lemma log2_eq {r : ℚ} {e : ℤ} (h0 : 0 < r) (h1 : (2:ℚ)^e ≤ r)
    (h2 : r < (2:ℚ)^(e+1)) : Int.log 2 r = e := by
  have hle : e ≤ Int.log 2 r :=
    (Int.zpow_le_iff_le_log one_lt_two h0).mp (by exact_mod_cast h1)
  have hlt : Int.log 2 r < e + 1 :=
    (Int.lt_zpow_iff_log_lt one_lt_two h0).mp (by exact_mod_cast h2)
  omega

lemma fl_pos_eq {q : ℚ} (e : ℤ) (h0 : 0 < q) (h1 : (2:ℚ)^e ≤ q)
    (h2 : q < (2:ℚ)^(e+1)) : fl q = rne ((2:ℚ) ^ (e - 52)) q := by
  unfold fl
  rw [if_neg h0.ne', abs_of_pos h0, log2_eq h0 h1 h2]

lemma fl_neg_eq {q : ℚ} (e : ℤ) (h0 : q < 0) (h1 : (2:ℚ)^e ≤ -q)
    (h2 : -q < (2:ℚ)^(e+1)) : fl q = rne ((2:ℚ) ^ (e - 52)) q := by
  unfold fl
  rw [if_neg h0.ne, abs_of_neg h0, log2_eq (neg_pos.mpr h0) h1 h2]

lemma rne_eval_up {u q : ℚ} (z : ℤ) (hz1 : (z:ℚ) ≤ q / u) (hz2 : q / u < z + 1)
    (hr : 1/2 < q / u - z) : rne u q = (z + 1) * u := by
  have hz : ⌊q / u⌋ = z := Int.floor_eq_iff.mpr ⟨hz1, hz2⟩
  unfold rne
  rw [hz, if_neg (by linarith), if_pos hr]

lemma rne_eval_down {u q : ℚ} (z : ℤ) (hz1 : (z:ℚ) ≤ q / u)
    (hz2 : q / u < z + 1) (hr : q / u - z < 1/2) : rne u q = z * u := by
  have hz : ⌊q / u⌋ = z := Int.floor_eq_iff.mpr ⟨hz1, hz2⟩
  unfold rne
  rw [hz, if_pos hr]

/-- The binary64 value of the literal `0.9`. -/
lemma lambda1_val : lambda1 = 8106479329266893 / 2^53 := by
  unfold lambda1
  rw [fl_pos_eq (-1) (by norm_num) (by norm_num) (by norm_num)]
  rw [rne_eval_up 8106479329266892 (by norm_num) (by norm_num) (by norm_num)]
  norm_num

/-- The binary64 value of `1 - 0.9`: the exact difference fits in 53 bits,
so no rounding happens at the subtraction. -/
lemma lambda2_val : lambda2 = 900719925474099 / 2^53 := by
  unfold lambda2
  rw [lambda1_val]
  rw [show (1 : ℚ) - 8106479329266893 / 2^53 = 900719925474099 / 2^53 by norm_num]
  rw [fl_pos_eq (-4) (by norm_num) (by norm_num) (by norm_num)]
  rw [rne_eval_down 7205759403792792 (by norm_num) (by norm_num) (by norm_num)]
  norm_num

/-- The binary64 product `lambda2 * margin` rounds up by half an ulp. -/
lemma fl_lambda2_mul_margin :
    fl (lambda2 * margin) = 5346375290060799 / 2^37 := by
  rw [lambda2_val]
  rw [show (900719925474099 / 2^53 : ℚ) * margin
      = 350380051009424511000 / 2^53 by unfold margin; norm_num]
  rw [fl_pos_eq 15 (by norm_num) (by norm_num) (by norm_num)]
  rw [rne_eval_up 5346375290060798 (by norm_num) (by norm_num) (by norm_num)]
  norm_num

/-- The binary64 value of the null margin `c` of cell-7: exactly
`-48900 + 2 ^ (-37)`, the value the notebook prints as
`-48899.99999999999`.  The final subtraction is exact in binary64. -/
lemma c_val : c = -6720764824780799 / 2^37 := by
  unfold c
  rw [fl_lambda2_mul_margin]
  rw [show ((42500 : ℚ) - 52500) - 5346375290060799 / 2^37
      = -6720764824780799 / 2^37 by norm_num]
  rw [fl_neg_eq 15 (by norm_num) (by norm_num) (by norm_num)]
  rw [rne_eval_down (-6720764824780799) (by norm_num) (by norm_num) (by norm_num)]
  norm_num

/-! ### Behavior of the sampler and of the search loop -/

lemma drawSample_eq_some {pop : List Ballot} (hpop : pop ≠ []) (g : ℕ → ℕ)
    (off n : ℕ) :
    drawSample g off pop n
      = some ((List.range n).map fun k =>
          pop.get ⟨g (off + k) % pop.length,
            Nat.mod_lt _ (List.length_pos.mpr hpop)⟩) := by
  unfold drawSample
  rw [dif_neg hpop]

lemma pvalAt_zero {α : Type} (oracle : List Ballot → ℕ → ℚ → α) (g : ℕ → ℕ)
    (pop : List Ballot) (popsize : ℕ) (c : ℚ) (n : ℕ) (rest : List ℕ)
    (off : ℕ) :
    pvalAt oracle g pop popsize c (n :: rest) off 0
      = oracle ((drawSample g off pop n).getD []) popsize c := by
  simp [pvalAt]

lemma pvalAt_succ {α : Type} (oracle : List Ballot → ℕ → ℚ → α) (g : ℕ → ℕ)
    (pop : List Ballot) (popsize : ℕ) (c : ℚ) (n : ℕ) (rest : List ℕ)
    (off i : ℕ) :
    pvalAt oracle g pop popsize c (n :: rest) off (i + 1)
      = pvalAt oracle g pop popsize c rest (off + n) i := by
  simp [pvalAt, List.take_succ_cons, add_assoc]

lemma searchGo_found {α : Type} [LinearOrder α]
    (oracle : List Ballot → ℕ → ℚ → α) (g : ℕ → ℕ) (pop : List Ballot)
    (popsize : ℕ) (c : ℚ) (alpha : α) (hpop : pop ≠ []) :
    ∀ (cands : List ℕ) (off k : ℕ), k < cands.length →
      (∀ j, j < k → ¬ pvalAt oracle g pop popsize c cands off j < alpha) →
      pvalAt oracle g pop popsize c cands off k < alpha →
      searchGo oracle g pop popsize c alpha cands off
          = .found (cands.getD k 0) (pvalAt oracle g pop popsize c cands off k)
        ∧ (traceGo oracle g pop popsize c alpha cands off).map Prod.fst
          = cands.take (k + 1) := by
  intro cands
  induction cands with
  | nil =>
    intro off k hk
    simp at hk
  | cons n rest ih =>
    intro off k hk hbef hlt
    have hs := drawSample_eq_some hpop g off n
    set s := (List.range n).map fun k =>
      pop.get ⟨g (off + k) % pop.length, Nat.mod_lt _ (List.length_pos.mpr hpop)⟩
      with hsdef
    have hp0 : pvalAt oracle g pop popsize c (n :: rest) off 0
        = oracle s popsize c := by
      rw [pvalAt_zero, hs, Option.getD_some]
    cases k with
    | zero =>
      have hlt0 : oracle s popsize c < alpha := by rw [← hp0]; exact hlt
      refine ⟨?_, ?_⟩
      · simp only [searchGo, hs, if_pos hlt0, List.getD_cons_zero, hp0]
      · simp only [traceGo, hs, if_pos hlt0, List.map_cons, List.map_nil,
          List.take_succ_cons, List.take_zero]
    | succ k' =>
      have hge : ¬ oracle s popsize c < alpha := by
        rw [← hp0]; exact hbef 0 (Nat.succ_pos k')
      have hk' : k' < rest.length := by simpa using hk
      have hbef' : ∀ j, j < k' →
          ¬ pvalAt oracle g pop popsize c rest (off + n) j < alpha := by
        intro j hj
        have h := hbef (j + 1) (by omega)
        rwa [pvalAt_succ] at h
      have hlt' : pvalAt oracle g pop popsize c rest (off + n) k' < alpha := by
        rwa [pvalAt_succ] at hlt
      obtain ⟨ih1, ih2⟩ := ih (off + n) k' hk' hbef' hlt'
      refine ⟨?_, ?_⟩
      · simp only [searchGo, hs, if_neg hge, List.getD_cons_succ, pvalAt_succ]
        exact ih1
      · simp only [traceGo, hs, if_neg hge, List.map_cons, List.take_succ_cons,
          ih2]

lemma searchGo_exhausted_of {α : Type} [LinearOrder α]
    (oracle : List Ballot → ℕ → ℚ → α) (g : ℕ → ℕ) (pop : List Ballot)
    (popsize : ℕ) (c : ℚ) (alpha : α) (hpop : pop ≠ []) :
    ∀ (cands : List ℕ) (off : ℕ),
      (∀ j, j < cands.length →
        ¬ pvalAt oracle g pop popsize c cands off j < alpha) →
      searchGo oracle g pop popsize c alpha cands off = .exhausted := by
  intro cands
  induction cands with
  | nil =>
    intro off _
    simp [searchGo]
  | cons n rest ih =>
    intro off hall
    have hs := drawSample_eq_some hpop g off n
    set s := (List.range n).map fun k =>
      pop.get ⟨g (off + k) % pop.length, Nat.mod_lt _ (List.length_pos.mpr hpop)⟩
      with hsdef
    have hp0 : pvalAt oracle g pop popsize c (n :: rest) off 0
        = oracle s popsize c := by
      rw [pvalAt_zero, hs, Option.getD_some]
    have hge : ¬ oracle s popsize c < alpha := by
      rw [← hp0]; exact hall 0 (Nat.succ_pos _)
    simp only [searchGo, hs, if_neg hge]
    refine ih (off + n) ?_
    intro j hj
    have h := hall (j + 1) (by simpa using hj)
    rwa [pvalAt_succ] at h

lemma traceGo_length_le {α : Type} [LinearOrder α]
    (oracle : List Ballot → ℕ → ℚ → α) (g : ℕ → ℕ) (pop : List Ballot)
    (popsize : ℕ) (c : ℚ) (alpha : α) :
    ∀ (cands : List ℕ) (off : ℕ),
      (traceGo oracle g pop popsize c alpha cands off).length ≤ cands.length := by
  intro cands
  induction cands with
  | nil =>
    intro off
    simp [traceGo]
  | cons n rest ih =>
    intro off
    rcases h : drawSample g off pop n with _ | s
    · simp [traceGo, h]
    · simp only [traceGo, h]
      by_cases hlt : oracle s popsize c < alpha
      · simp [hlt]
      · simp only [if_neg hlt, List.length_cons]
        exact Nat.succ_le_succ (ih (off + n))

lemma traceGo_map_fst_take {α : Type} [LinearOrder α]
    (oracle : List Ballot → ℕ → ℚ → α) (g : ℕ → ℕ) (pop : List Ballot)
    (popsize : ℕ) (c : ℚ) (alpha : α) :
    ∀ (cands : List ℕ) (off : ℕ),
      (traceGo oracle g pop popsize c alpha cands off).map Prod.fst
        = cands.take (traceGo oracle g pop popsize c alpha cands off).length := by
  intro cands
  induction cands with
  | nil =>
    intro off
    simp [traceGo]
  | cons n rest ih =>
    intro off
    rcases h : drawSample g off pop n with _ | s
    · simp [traceGo, h]
    · simp only [traceGo, h]
      by_cases hlt : oracle s popsize c < alpha
      · simp [hlt]
      · simp only [if_neg hlt, List.map_cons, List.length_cons,
          List.take_succ_cons]
        rw [ih (off + n)]

lemma searchGo_ne_error {α : Type} [LinearOrder α]
    (oracle : List Ballot → ℕ → ℚ → α) (g : ℕ → ℕ) (pop : List Ballot)
    (popsize : ℕ) (c : ℚ) (alpha : α) (hpop : pop ≠ []) :
    ∀ (cands : List ℕ) (off : ℕ),
      searchGo oracle g pop popsize c alpha cands off ≠ .error := by
  intro cands
  induction cands with
  | nil =>
    intro off
    simp [searchGo]
  | cons n rest ih =>
    intro off
    have hs := drawSample_eq_some hpop g off n
    simp only [searchGo, hs]
    by_cases hlt : oracle ((List.range n).map fun k =>
        pop.get ⟨g (off + k) % pop.length,
          Nat.mod_lt _ (List.length_pos.mpr hpop)⟩) popsize c < alpha
    · rw [if_pos hlt]
      simp
    · rw [if_neg hlt]
      exact ih (off + n)

lemma searchGo_nil_pop {α : Type} [LinearOrder α]
    (oracle : List Ballot → ℕ → ℚ → α) (g : ℕ → ℕ) (popsize : ℕ) (c : ℚ)
    (alpha : α) (n : ℕ) (rest : List ℕ) (off : ℕ) :
    searchGo oracle g [] popsize c alpha (n :: rest) off = .error := by
  simp [searchGo, drawSample]

/-! ### Claims -/

set_option maxRecDepth 4000 in
/-- Claim C1, counterexample: the cell-7 loop header
`for n in range(20, 10000, 20)` never evaluates `n = 10000`; the last
candidate sample size is 9980, so the claim that `n = max_n = 10000` is
evaluated as the last candidate is false on the code. -/
theorem candidates_exclude_maxN :
    10000 ∉ pyRange 20 10000 20
      ∧ (pyRange 20 10000 20).getLast? = some 9980 := by
  constructor
  · decide
  · decide

set_option maxRecDepth 4000 in
/-- Claim C1, amended: the candidate sample sizes evaluated by the cell-7
loop (when no earlier iteration succeeds) are exactly the multiples of 20
from 20 up while `n < max_n` (strictly), i.e. 20, 40, ..., 9980; `max_n =
10000` itself is never a candidate and the last candidate is 9980. -/
theorem candidates_arith_progression :
    (∀ n : ℕ, n ∈ pyRange 20 10000 20 ↔ 20 ≤ n ∧ n < 10000 ∧ n % 20 = 0)
      ∧ (pyRange 20 10000 20).getLast? = some 9980 := by
  constructor
  · intro n
    have hlen : (10000 - 20 + 20 - 1) / 20 = 499 := by norm_num
    simp only [pyRange, List.mem_map, List.mem_range, hlen]
    constructor
    · rintro ⟨i, hi, rfl⟩
      omega
    · rintro ⟨h1, h2, h3⟩
      refine ⟨n / 20 - 1, ?_, ?_⟩ <;> omega
  · decide

/-- Claim C2: for every oracle behavior, the search stops at the first
candidate index `k` whose p-value is below `alpha`, returning exactly that
pair, and the evaluated candidates (the printed trace) are precisely the
candidates up to and including index `k`: no larger sample size is ever
evaluated, and every earlier candidate had a p-value at or above `alpha`
and the loop continued past it. -/
theorem search_stops_at_first_success {α : Type} [LinearOrder α]
    (oracle : List Ballot → ℕ → ℚ → α) (g : ℕ → ℕ) (pop : List Ballot)
    (popsize : ℕ) (c : ℚ) (alpha : α) (stepSize maxN k : ℕ)
    (hpop : pop ≠ [])
    (hk : k < (pyRange stepSize maxN stepSize).length)
    (hbef : ∀ j, j < k →
      ¬ pvalAt oracle g pop popsize c (pyRange stepSize maxN stepSize) 0 j
          < alpha)
    (hlt : pvalAt oracle g pop popsize c (pyRange stepSize maxN stepSize) 0 k
        < alpha) :
    search oracle g pop popsize c alpha stepSize maxN
        = .found ((pyRange stepSize maxN stepSize).getD k 0)
            (pvalAt oracle g pop popsize c (pyRange stepSize maxN stepSize) 0 k)
      ∧ (searchTrace oracle g pop popsize c alpha stepSize maxN).map Prod.fst
        = (pyRange stepSize maxN stepSize).take (k + 1) :=
  searchGo_found oracle g pop popsize c alpha hpop
    (pyRange stepSize maxN stepSize) 0 k hk hbef hlt

/-- Claim C2, witness at a concrete input: one candidate list `[1, 2]`, a
constant oracle returning -3 and risk limit -2, first success at index 0. -/
theorem search_stops_at_first_success_witness :
    (([Ballot.zero] : List Ballot) ≠ [])
      ∧ (pvalAt (fun _ _ _ => (-3 : ℤ)) (fun m => m) [Ballot.zero] 1 0
            (pyRange 1 3 1) 0 0 < -2)
      ∧ (search (fun _ _ _ => (-3 : ℤ)) (fun m => m) [Ballot.zero] 1 0 (-2) 1 3
            = .found ((pyRange 1 3 1).getD 0 0)
                (pvalAt (fun _ _ _ => (-3 : ℤ)) (fun m => m) [Ballot.zero] 1 0
                  (pyRange 1 3 1) 0 0)
          ∧ (searchTrace (fun _ _ _ => (-3 : ℤ)) (fun m => m) [Ballot.zero] 1 0
                (-2) 1 3).map Prod.fst = (pyRange 1 3 1).take 1) :=
  ⟨by decide, by decide,
    search_stops_at_first_success (fun _ _ _ => (-3 : ℤ)) (fun m => m)
      [Ballot.zero] 1 0 (-2) 1 3 0 (by decide) (by decide)
      (fun j hj => absurd hj (Nat.not_lt_zero j)) (by decide)⟩

/-- Claim C3: at a loop iteration with sample size `n` and generator
position `off`, the sampler returns exactly `n` values, every value is an
element of the population, the sample is a function of the generator values
at the positions of this iteration alone (so it is a fresh draw, not an
extension of earlier samples), and every combination of population indices
is realizable by some generator (with-replacement draws, each one ranging
over the whole population independent of the others). -/
theorem fresh_sample_with_replacement (g : ℕ → ℕ) (off : ℕ)
    (pop : List Ballot) (n : ℕ) (hpop : pop ≠ []) :
    ∃ s, drawSample g off pop n = some s
      ∧ s.length = n
      ∧ (∀ x ∈ s, x ∈ pop)
      ∧ (∀ g2 : ℕ → ℕ, (∀ k, k < n → g2 (off + k) = g (off + k)) →
          drawSample g2 off pop n = some s)
      ∧ ∀ f : ℕ → Fin pop.length, ∃ g3 : ℕ → ℕ,
          drawSample g3 off pop n
            = some ((List.range n).map fun k => pop.get (f k)) := by
  refine ⟨_, drawSample_eq_some hpop g off n, by simp, ?_, ?_, ?_⟩
  · intro x hx
    simp only [List.mem_map, List.mem_range] at hx
    obtain ⟨k, _, rfl⟩ := hx
    exact pop.get_mem _ _
  · intro g2 hg2
    rw [drawSample_eq_some hpop g2 off n]
    congr 1
    refine List.map_congr_left ?_
    intro k hk
    simp only [List.mem_range] at hk
    simp [hg2 k hk]
  · intro f
    refine ⟨fun m => (f (m - off)).val, ?_⟩
    rw [drawSample_eq_some hpop _ off n]
    congr 1
    refine List.map_congr_left ?_
    intro k hk
    have hval : (f (off + k - off)).val % pop.length = (f k).val :=
      by rw [Nat.add_sub_cancel_left]; exact Nat.mod_eq_of_lt (f k).isLt
    congr 1
    exact Fin.ext hval

/-- Claim C3, witness at a concrete input: two draws from a two-element
population. -/
theorem fresh_sample_with_replacement_witness :
    (([Ballot.zero, Ballot.one] : List Ballot) ≠ [])
      ∧ ∃ s, drawSample (fun m => m) 0 [Ballot.zero, Ballot.one] 2 = some s
          ∧ s.length = 2
          ∧ (∀ x ∈ s, x ∈ [Ballot.zero, Ballot.one])
          ∧ (∀ g2 : ℕ → ℕ, (∀ k, k < 2 → g2 (0 + k) = (fun m => m) (0 + k)) →
              drawSample g2 0 [Ballot.zero, Ballot.one] 2 = some s)
          ∧ ∀ f : ℕ → Fin ([Ballot.zero, Ballot.one] : List Ballot).length,
              ∃ g3 : ℕ → ℕ,
                drawSample g3 0 [Ballot.zero, Ballot.one] 2
                  = some ((List.range 2).map fun k =>
                      ([Ballot.zero, Ballot.one] : List Ballot).get (f k)) :=
  ⟨by decide,
    fresh_sample_with_replacement (fun m => m) 0 [Ballot.zero, Ballot.one] 2
      (by decide)⟩

/-- Claim C4, counterexample: with a two-element population and requested
sample size 3 (strictly greater than the population size), the sampler does
not fail: it silently draws a with-replacement sample of 3 values, and the
search loop on that candidate completes without an error outcome. -/
theorem sampling_beyond_popsize_no_error :
    (([Ballot.zero, Ballot.one] : List Ballot).length < 3)
      ∧ drawSample (fun m => m) 0 [Ballot.zero, Ballot.one] 3
          = some [Ballot.zero, Ballot.one, Ballot.zero]
      ∧ searchGo (fun _ _ _ => (1 : ℤ)) (fun m => m) [Ballot.zero, Ballot.one]
          2 0 0 [3] 0 = SearchResult.exhausted := by
  refine ⟨by decide, by decide, by decide⟩

/-- Claim C4, amended: `np.random.choice(pop, n)` samples with replacement
(its default), so every requested sample size `n` at or beyond the
population size is accepted: the sampler silently returns a sample of
exactly `n` population values and no invalid-sample-size error exists;
`n = population_size` is accepted as a special case. -/
theorem sampling_with_replacement_accepts_large_n (g : ℕ → ℕ) (off : ℕ)
    (pop : List Ballot) (n : ℕ) (hpop : pop ≠ []) (_hn : pop.length ≤ n) :
    ∃ s, drawSample g off pop n = some s
      ∧ s.length = n
      ∧ ∀ x ∈ s, x ∈ pop := by
  refine ⟨_, drawSample_eq_some hpop g off n, by simp, ?_⟩
  intro x hx
  simp only [List.mem_map, List.mem_range] at hx
  obtain ⟨k, _, rfl⟩ := hx
  exact pop.get_mem _ _

/-- Claim C4 (amended), witness at a concrete input: sample size 3 from a
population of size 2. -/
theorem sampling_with_replacement_accepts_large_n_witness :
    (([Ballot.zero, Ballot.one] : List Ballot) ≠ [])
      ∧ (([Ballot.zero, Ballot.one] : List Ballot).length ≤ 3)
      ∧ ∃ s, drawSample (fun m => m) 0 [Ballot.zero, Ballot.one] 3 = some s
          ∧ s.length = 3
          ∧ ∀ x ∈ s, x ∈ [Ballot.zero, Ballot.one] :=
  ⟨by decide, by decide,
    sampling_with_replacement_accepts_large_n (fun m => m) 0
      [Ballot.zero, Ballot.one] 3 (by decide) (by decide)⟩

/-- Claim C5, counterexample: the notebook performs no parameter
validation.  With the risk limit set to 2 (outside the open interval (0,1))
the search does not fail fast: it draws a sample, calls the oracle and
returns success at the first candidate; with the risk limit set to 0 it
runs every candidate and ends as exhausted.  In neither case is an
invalid-parameters error reported before sampling or oracle calls. -/
theorem invalid_alpha_not_rejected :
    search (fun _ _ _ => (1 : ℚ)) (fun m => m) [Ballot.zero] 1 0 2 1 3
        = SearchResult.found 1 1
      ∧ search (fun _ _ _ => (1 : ℚ)) (fun m => m) [Ballot.zero] 1 0 0 1 3
        = SearchResult.exhausted := by
  have hpy : pyRange 1 3 1 = [1, 2] := by decide
  have hpop : ([Ballot.zero] : List Ballot) ≠ [] := by simp
  constructor
  · have hk : 0 < (pyRange 1 3 1).length := by rw [hpy]; simp
    have hbef : ∀ j, j < 0 →
        ¬ pvalAt (fun _ _ _ => (1 : ℚ)) (fun m => m) [Ballot.zero] 1 0
            (pyRange 1 3 1) 0 j < 2 :=
      fun j hj => absurd hj (Nat.not_lt_zero j)
    have hlt : pvalAt (fun _ _ _ => (1 : ℚ)) (fun m => m) [Ballot.zero] 1 0
        (pyRange 1 3 1) 0 0 < 2 := by
      simp only [pvalAt]
      norm_num
    obtain ⟨h1, _⟩ := searchGo_found (fun _ _ _ => (1 : ℚ)) (fun m => m)
      [Ballot.zero] 1 0 2 hpop (pyRange 1 3 1) 0 0 hk hbef hlt
    unfold search
    rw [h1]
    simp [hpy, pvalAt]
  · have hall : ∀ j, j < (pyRange 1 3 1).length →
        ¬ pvalAt (fun _ _ _ => (1 : ℚ)) (fun m => m) [Ballot.zero] 1 0
            (pyRange 1 3 1) 0 j < 0 := by
      intro j hj
      simp only [pvalAt]
      norm_num
    unfold search
    exact searchGo_exhausted_of (fun _ _ _ => (1 : ℚ)) (fun m => m)
      [Ballot.zero] 1 0 0 hpop (pyRange 1 3 1) 0 hall

/-- Claim C5, amended: the search validates nothing.  A risk limit outside
(0,1) is accepted and the loop runs normally; the only degenerate input
that fails is an empty population, and that failure is raised by the
sampling call inside the first loop iteration (numpy `ValueError`), not by
a parameter check before any sampling.  With a nonempty population the
search never yields the error outcome, whatever the risk limit. -/
theorem no_parameter_validation {α : Type} [LinearOrder α]
    (oracle : List Ballot → ℕ → ℚ → α) (g : ℕ → ℕ) (popsize : ℕ) (c : ℚ)
    (alpha : α) (cands : List ℕ) (off : ℕ) :
    (cands ≠ [] →
        searchGo oracle g [] popsize c alpha cands off = .error)
      ∧ ∀ pop : List Ballot, pop ≠ [] →
          searchGo oracle g pop popsize c alpha cands off ≠ .error := by
  constructor
  · intro hc
    cases cands with
    | nil => exact absurd rfl hc
    | cons n rest => exact searchGo_nil_pop oracle g popsize c alpha n rest off
  · intro pop hpop
    exact searchGo_ne_error oracle g pop popsize c alpha hpop cands off

/-- Claim C5 (amended), witness at a concrete input. -/
theorem no_parameter_validation_witness :
    ((([5] : List ℕ) ≠ []) →
        searchGo (fun _ _ _ => (1 : ℤ)) (fun m => m) [] 1 0 0 [5] 0 = .error)
      ∧ ∀ pop : List Ballot, pop ≠ [] →
          searchGo (fun _ _ _ => (1 : ℤ)) (fun m => m) pop 1 0 0 [5] 0
            ≠ .error :=
  no_parameter_validation (fun _ _ _ => (1 : ℤ)) (fun m => m) 1 0 0 [5] 0

/-- Claim C6: when every candidate p-value stays at or above the risk
limit, the search ends in the `exhausted` outcome, a normal terminal value
of the result type that is distinct from every success outcome and from
the error outcome, so the caller can tell the three apart. -/
theorem exhausted_is_distinct_normal_outcome {α : Type} [LinearOrder α]
    (oracle : List Ballot → ℕ → ℚ → α) (g : ℕ → ℕ) (pop : List Ballot)
    (popsize : ℕ) (c : ℚ) (alpha : α) (stepSize maxN : ℕ)
    (hpop : pop ≠ [])
    (hall : ∀ j, j < (pyRange stepSize maxN stepSize).length →
      ¬ pvalAt oracle g pop popsize c (pyRange stepSize maxN stepSize) 0 j
          < alpha) :
    search oracle g pop popsize c alpha stepSize maxN = .exhausted
      ∧ (∀ (n : ℕ) (p : α),
          (SearchResult.exhausted : SearchResult α) ≠ .found n p)
      ∧ (SearchResult.exhausted : SearchResult α) ≠ .error := by
  refine ⟨searchGo_exhausted_of oracle g pop popsize c alpha hpop _ 0 hall,
    ?_, ?_⟩
  · intro n p h
    exact SearchResult.noConfusion h
  · intro h
    exact SearchResult.noConfusion h

/-- Claim C6, witness at a concrete input: a constant oracle at 1 with risk
limit 0 exhausts the single candidate. -/
theorem exhausted_is_distinct_normal_outcome_witness :
    (([Ballot.zero] : List Ballot) ≠ [])
      ∧ (search (fun _ _ _ => (1 : ℤ)) (fun m => m) [Ballot.zero] 1 0 0 1 2
            = .exhausted
          ∧ (∀ (n : ℕ) (p : ℤ),
              (SearchResult.exhausted : SearchResult ℤ) ≠ .found n p)
          ∧ (SearchResult.exhausted : SearchResult ℤ) ≠ .error) :=
  ⟨by decide,
    exhausted_is_distinct_normal_outcome (fun _ _ _ => (1 : ℤ)) (fun m => m)
      [Ballot.zero] 1 0 0 1 2 (by decide)
      (fun j hj => by simp only [pvalAt]; decide)⟩

/-- Claim C7, counterexample: the null margin the notebook passes to the
oracle is not exactly -48900.  The binary64 computation
`(42500-52500) - lambda2*margin` with `lambda2 = 1 - 0.9` yields
`-6720764824780799 / 2^37 = -48900 + 2^(-37)`, which the notebook prints
as `-48899.99999999999`. -/
theorem null_margin_not_exact :
    c ≠ -48900 ∧ c = -6720764824780799 / 2^37 := by
  constructor
  · rw [c_val]
    norm_num
  · exact c_val

/-- Claim C7, amended: the null margin is the binary64 value of
`(42500-52500) - lambda2*margin`, namely `-48900 + 2^(-37)` (printed as
-48899.99999999999), half an ulp away from -48900; the same formula in
exact arithmetic, with `lambda2 = 1 - 9/10 = 1/10`, gives exactly
-48900. -/
theorem null_margin_value :
    c = -48900 + ((2 : ℚ)^(37 : ℕ))⁻¹
      ∧ ((42500 : ℚ) - 52500) - (1 - 9/10) * 389000 = -48900 := by
  constructor
  · rw [c_val]
    norm_num
  · norm_num

/-- Claim C8: for every oracle behavior and every generator, the search
over `range(20, 10000, 20)` executes at most one iteration per candidate
sample size: the printed trace has at most 499 entries, 499 is at most
`ceil(max_n / step) = (10000 + 20 - 1) / 20`, and the evaluated sample
sizes are an initial segment of the candidate list (one oracle call per
candidate, in order).  The loop is structurally bounded by the candidate
list, so it always terminates, with no other bound on its running. -/
theorem iteration_bound {α : Type} [LinearOrder α]
    (oracle : List Ballot → ℕ → ℚ → α) (g : ℕ → ℕ) (pop : List Ballot)
    (popsize : ℕ) (c : ℚ) (alpha : α) :
    (searchTrace oracle g pop popsize c alpha 20 10000).length
        ≤ (pyRange 20 10000 20).length
      ∧ (pyRange 20 10000 20).length = 499
      ∧ 499 ≤ (10000 + 20 - 1) / 20
      ∧ (searchTrace oracle g pop popsize c alpha 20 10000).map Prod.fst
        = (pyRange 20 10000 20).take
            (searchTrace oracle g pop popsize c alpha 20 10000).length := by
  refine ⟨traceGo_length_le oracle g pop popsize c alpha _ 0, ?_,
    by norm_num, traceGo_map_fst_take oracle g pop popsize c alpha _ 0⟩
  simp [pyRange]

/-- Claim C9: two runs of the search over identical inputs whose generator
streams agree everywhere (the same fixed seed) produce the same printed
`(n, pvalue)` sequence and the same terminal outcome. -/
theorem fixed_seed_reproducibility {α : Type} [LinearOrder α]
    (oracle : List Ballot → ℕ → ℚ → α) (g1 g2 : ℕ → ℕ) (pop : List Ballot)
    (popsize : ℕ) (c : ℚ) (alpha : α) (stepSize maxN : ℕ)
    (hg : ∀ k, g1 k = g2 k) :
    searchTrace oracle g1 pop popsize c alpha stepSize maxN
        = searchTrace oracle g2 pop popsize c alpha stepSize maxN
      ∧ search oracle g1 pop popsize c alpha stepSize maxN
        = search oracle g2 pop popsize c alpha stepSize maxN := by
  have h : g1 = g2 := funext hg
  subst h
  exact ⟨rfl, rfl⟩

/-- Claim C9, witness at a concrete input. -/
theorem fixed_seed_reproducibility_witness :
    (∀ k : ℕ, (fun m => m + 1) k = (fun m => m + 1) k)
      ∧ (searchTrace (fun _ _ _ => (1 : ℤ)) (fun m => m + 1) [Ballot.zero] 1 0
            0 1 2
          = searchTrace (fun _ _ _ => (1 : ℤ)) (fun m => m + 1) [Ballot.zero]
              1 0 0 1 2
        ∧ search (fun _ _ _ => (1 : ℤ)) (fun m => m + 1) [Ballot.zero] 1 0 0 1
              2
          = search (fun _ _ _ => (1 : ℤ)) (fun m => m + 1) [Ballot.zero] 1 0 0
              1 2) :=
  ⟨fun _ => rfl,
    fixed_seed_reproducibility (fun _ _ _ => (1 : ℤ)) (fun m => m + 1)
      (fun m => m + 1) [Ballot.zero] 1 0 0 1 2 (fun _ => rfl)⟩

/-- Claim C10: one iteration of the loop body leaves the population and all
fixed parameters (`popsize`, null margin, risk limit, step, ceiling)
unchanged; the only state it changes is the loop counter, the generator
position, and the per-iteration sample and p-value bindings, exactly as the
loop computes them. -/
theorem loop_frame {α : Type} (oracle : List Ballot → ℕ → ℚ → α)
    (g : ℕ → ℕ) (s : LoopState α) :
    (stepLoop oracle g s).pop = s.pop
      ∧ (stepLoop oracle g s).popsize = s.popsize
      ∧ (stepLoop oracle g s).c = s.c
      ∧ (stepLoop oracle g s).alpha = s.alpha
      ∧ (stepLoop oracle g s).stepSize = s.stepSize
      ∧ (stepLoop oracle g s).maxN = s.maxN
      ∧ (stepLoop oracle g s).n = s.n + s.stepSize
      ∧ (stepLoop oracle g s).off = s.off + s.n
      ∧ (stepLoop oracle g s).sample = drawSample g s.off s.pop s.n
      ∧ (stepLoop oracle g s).pval
        = (drawSample g s.off s.pop s.n).map fun sm =>
            oracle sm s.popsize s.c :=
  ⟨rfl, rfl, rfl, rfl, rfl, rfl, rfl, rfl, rfl, rfl⟩

end HybridAudit
